import Mathlib

/-!
Shallow embedding of src/src/core/hours_calculator.py
(class ArgentineHoursCalculator) in Lean 4.

Modelling conventions, fixed once for the whole file:

* Python floats are modelled as rationals.  Python round() (banker's
  rounding, used via int(round(...)) and round(x, 2)) is modelled by
  pyRound, round-half-to-even on rationals.
* A naive local datetime is modelled as a rational number of minutes
  since a fixed epoch whose day 0 is a Monday, so that the calendar
  date is the floor division of the minute count by 1440 and Python's
  date.weekday() is the day index modulo 7 (0 = Monday ... 6 = Sunday).
* Strings that the source only ever feeds to a parser are modelled by
  their parse outcome:
  - a reference-date string, after the or-chain and the [:10] cut of
    _get_ref_str, is RefStr: empty ("" - falsy), invalid (non-empty but
    rejected by strptime '%Y-%m-%d'), or valid d (the parsed date, as a
    day index);
  - a punch timestamp (entries[i].time or .date, after the [:25] cut)
    is Option PTime: none when missing/empty (falsy), some .invalid
    when present but rejected by _parse_iso_to_local, some (.valid t)
    when it parses to local naive datetime t; the timezone conversion
    performed by _parse_iso_to_local is part of this abstraction;
  - a scheduled time string (timeSlots[0].startTime/endTime) is
    Option SchedStr: none when missing/empty, some .invalid when the
    split/strip/int parse of _calcular_* raises, some (.valid h m) when
    it reads as two integers h:m (scheduled strings are assumed not to
    contain a dash, as in the "HH:MM" data the source consumes);
  - a shift display string (built by _display_from_entries, consumed by
    _only_hhmm and the [:10] strptime of the deviation helpers) is
    DispStr: its truthiness, the parse of its first 10 characters as a
    date, and the first HH:MM substring the _only_hhmm regex finds.
* categorizedHours[i].category.name is stored already upper-cased, as
  the loop in process_employee_data only sees it through .upper().
* config.default_config is not part of the repository; the Config
  structure carries exactly the keys __init__ reads, and sampleConfig
  below instantiates them with the defaults the spec names (full
  workday 8, night window 21-6, Saturday boundary 13, fragment 30).
-/

namespace HoursCalc

/-- Python round(): round half to even, on rationals. -/
def pyRound (q : ℚ) : ℤ :=
  if q - ⌊q⌋ < 1/2 then ⌊q⌋
  else if 1/2 < q - ⌊q⌋ then ⌊q⌋ + 1
  else if ⌊q⌋ % 2 = 0 then ⌊q⌋ else ⌊q⌋ + 1

/-- Python round(x, 2). -/
def round2 (q : ℚ) : ℚ := (pyRound (q * 100) : ℚ) / 100

/-- The configuration keys read by ArgentineHoursCalculator.__init__. -/
structure Config where
  jornada_completa : ℚ
  hora_nocturna_inicio : ℕ
  hora_nocturna_fin : ℕ
  sabado_limite : ℕ
  tolerancia_minutos : ℚ
  fragmento_minutos : ℤ
  holiday_names : List (ℤ × String)
  extras_al_50 : ℚ
  restar_llegada_anticipada_de_horas_extras : Bool
  redondear_extras : Bool
  deriving DecidableEq

/-- Sanity of the night-window hours: datetime.replace(hour=h) demands
0 <= h <= 23, so only such configurations run in Python at all. -/
def Config.WF (cfg : Config) : Prop :=
  cfg.hora_nocturna_inicio ≤ 23 ∧ cfg.hora_nocturna_fin ≤ 23

instance (cfg : Config) : Decidable cfg.WF := by
  unfold Config.WF; infer_instance

/-- Parse outcome of a reference-date string, see header. -/
inductive RefStr where
  | empty
  | invalid
  | valid (d : ℤ)
  deriving DecidableEq

/-- Parse outcome of a present punch timestamp string, see header. -/
inductive PTime where
  | invalid
  | valid (t : ℚ)
  deriving DecidableEq

inductive EType where
  | START
  | END
  | OTHER
  deriving DecidableEq

/-- One element of day_summary.entries; time is the combined
(e.get('time') or e.get('date')) value, none when that is falsy. -/
structure Entry where
  typ : EType
  time : Option PTime
  deriving DecidableEq

/-- Parse outcome of a scheduled clock string, see header. -/
inductive SchedStr where
  | invalid
  | valid (h m : ℤ)
  deriving DecidableEq

/-- One element of day_summary.timeSlots. -/
structure Slot where
  startTime : Option SchedStr
  endTime : Option SchedStr
  deriving DecidableEq

/-- One element of day_summary.categorizedHours: the upper-cased
category name and the float(hours) value. -/
structure CatHour where
  category : String
  hours : ℚ
  deriving DecidableEq

/-- One raw day record (a day_summary dict).  holidaysAPI holds, per
holidays[] element, its truthy name if any; timeOffRequests holds each
request's name field.  hoursWorked is
float(hours.worked or totalHours or 0). -/
structure DaySummary where
  referenceDate : RefStr
  entries : List Entry
  timeSlots : List Slot
  categorizedHours : List CatHour
  holidaysAPI : List (Option String)
  timeOffRequests : List (Option String)
  incidences : List String
  isWorkday : Bool
  hoursWorked : ℚ
  deriving DecidableEq

/-- A shift display string as consumed downstream: truthiness, the
strptime of its first 10 characters, and the _only_hhmm regex hit. -/
structure DispStr where
  nonempty : Bool
  date10 : Option ℤ
  hhmm : Option (ℤ × ℤ)
  deriving DecidableEq

structure EmployeeInfo where
  employeeInternalId : Option String
  deriving DecidableEq

/-- The per-day dict appended to daily_data. -/
structure ProcessedDay where
  employee_id : Option String
  date : ℤ
  day_of_week : String
  hours_worked : ℚ
  regular_hours : ℚ
  extra_hours : ℚ
  extra_hours_50 : ℚ
  extra_hours_100 : ℚ
  extra_hours_150 : ℚ
  night_hours : ℚ
  holiday_hours : ℚ
  pending_hours : ℚ
  tardanza_horas : ℚ
  retiro_anticipado_horas : ℚ
  is_holiday : Bool
  holiday_name : Option String
  is_rest_day : Bool
  has_time_off : Bool
  time_off_name : Option String
  has_absence : Bool
  is_full_time : Bool
  shift_start : DispStr
  shift_end : DispStr
  time_range : Option (SchedStr × SchedStr)
  extra_hours_day : ℚ
  extra_hours_night : ℚ
  extra_night_hours_50 : ℚ
  extra_night_hours_100 : ℚ
  holiday_night_hours : ℚ
  deriving DecidableEq

/-- The totals accumulator dict. -/
structure Totals where
  total_days_worked : ℚ
  total_hours_worked : ℚ
  total_regular_hours : ℚ
  total_extra_hours_50 : ℚ
  total_extra_hours_100 : ℚ
  total_night_hours : ℚ
  total_holiday_hours : ℚ
  total_pending_hours : ℚ
  total_tardanza_horas : ℚ
  total_retiro_anticipado_horas : ℚ
  total_extra_day_hours : ℚ
  total_extra_night_hours : ℚ
  total_extra_night_hours_50 : ℚ
  total_extra_night_hours_100 : ℚ
  total_holiday_night_hours : ℚ
  deriving DecidableEq

/-- Loop state of process_employee_data. -/
structure PState where
  daily : List ProcessedDay
  totals : Totals
  deriving DecidableEq

/-- The returned dict. -/
structure Output where
  employee_info : EmployeeInfo
  daily_data : List ProcessedDay
  totals : Totals
  deriving DecidableEq

/-- redondear_extras_a_media_hora: to minutes (Python round), split off
whole hours with divmod, keep the half hour iff the leftover reaches
fragmento_minutos. -/
def redondear_extras_a_media_hora (cfg : Config) (horas : ℚ) : ℚ :=
  if horas ≤ 0 then 0
  else if cfg.fragmento_minutos ≤ pyRound (horas * 60) % 60 then
    ((pyRound (horas * 60) / 60 : ℤ) : ℚ) + 1/2
  else ((pyRound (horas * 60) / 60 : ℤ) : ℚ)

/-- maybe_redondear_extras: apply the half-hour rounding only when the
redondear_extras flag is set. -/
def maybe_redondear_extras (cfg : Config) (horas : ℚ) : ℚ :=
  if cfg.redondear_extras then redondear_extras_a_media_hora cfg horas
  else horas

/-- split_extra_day_hours_at_13: the day overtime block is assumed to
sit at the tail of the shift; split it at the hard-coded 13:00 line
(780 minutes).  The HH:MM extraction on the display strings is the
hhmm field; the try/except of the source cannot fire on extracted
HH:MM values, all remaining arithmetic being total. -/
def split_extra_day_hours_at_13 (shift_start shift_end : DispStr)
    (extra_day_hours : ℚ) : ℚ × ℚ :=
  if extra_day_hours ≤ 0 then (0, 0)
  else
    match shift_end.hhmm with
    | none => (0, 0)
    | some he =>
        let hs := shift_start.hhmm.getD he
        let start_min := hs.1 * 60 + hs.2
        let end_min0 := he.1 * 60 + he.2
        let end_min := if end_min0 ≤ start_min then end_min0 + 24 * 60 else end_min0
        let extra_min := pyRound (extra_day_hours * 60)
        let extra_start0 := end_min - extra_min
        let extra_start := if extra_start0 < start_min then start_min else extra_start0
        let limite_1300 : ℤ := 13 * 60
        let before_13_min : ℤ :=
          if extra_start < limite_1300 then max 0 (min end_min limite_1300 - extra_start)
          else 0
        let after_13_min : ℤ :=
          if limite_1300 < end_min then max 0 (end_min - max extra_start limite_1300)
          else 0
        ((before_13_min : ℚ) / 60, (after_13_min : ℚ) / 60)

/-- redondear75: the legacy rule, round up only on a fractional part of
exactly .75 (on rationals the 1e-9 float tolerance is exactness). -/
def redondear75 (valor : ℚ) : ℚ :=
  let v := round2 valor
  if v - ⌊v⌋ = 3/4 then (⌊v⌋ : ℚ) + 1 else v

/-- The scan of _first_entry_pair_local over entries: the first START
and first END whose (time or date) string is truthy win; a START/END
whose string is missing leaves its slot open for a later entry. -/
def first_iso_scan : List Entry → Option PTime → Option PTime →
    Option PTime × Option PTime
  | [], s, e => (s, e)
  | x :: xs, s, e =>
      if x.typ = .START ∧ s = none then first_iso_scan xs x.time e
      else if x.typ = .END ∧ e = none then first_iso_scan xs s x.time
      else first_iso_scan xs s e

/-- _parse_iso_to_local applied to a scanned slot: missing or
unparseable input degrades to none. -/
def parse_slot : Option PTime → Option ℚ
  | some (.valid t) => some t
  | _ => none

/-- _first_entry_pair_local: parse the first START/END pair to local
datetimes; when both parse and end <= start, push end one day forward. -/
def first_entry_pair_local (d : DaySummary) : Option ℚ × Option ℚ :=
  let scanned := first_iso_scan d.entries none none
  let s_dt := parse_slot scanned.1
  let e_dt := parse_slot scanned.2
  match s_dt, e_dt with
  | some s, some e => (some s, some (if e ≤ s then e + 1440 else e))
  | _, _ => (s_dt, e_dt)

/-- strftime of a local datetime into a display string: the date is the
floor day, the HH:MM part truncates to whole minutes within the day. -/
def dtToDisp (t : ℚ) : DispStr :=
  let m := ⌊t⌋
  let dayI := m / 1440
  let tod := m % 1440
  ⟨true, some dayI, some (tod / 60, tod % 60)⟩

/-- The display string made of the bare reference date (no HH:MM
substring, ten characters, hence a parsable [:10] date). -/
def refDisp (ref : ℤ) : DispStr := ⟨true, some ref, none⟩

/-- _display_from_entries, joined into the two shift display strings
exactly as process_employee_data does with " ".join(...).strip(). -/
def display_from_entries (d : DaySummary) (ref : ℤ) : DispStr × DispStr :=
  match first_entry_pair_local d with
  | (some s, some e) => (dtToDisp s, dtToDisp e)
  | _ => (refDisp ref, refDisp ref)

/-- _get_intervals_from_entries. -/
def get_intervals_from_entries (d : DaySummary) : List (ℚ × ℚ) :=
  match first_entry_pair_local d with
  | (some s, some e) => [(s, e)]
  | _ => []

/-- _get_holiday_name: an API-supplied truthy name on the first
holidays[] element wins, else the configured date-to-name map. -/
def get_holiday_name (cfg : Config) (date : ℤ) (d : DaySummary) : Option String :=
  match d.holidaysAPI.head? with
  | some (some name) => some name
  | _ => (cfg.holiday_names.lookup date)

/-- _intersect_hours, on minute-valued datetimes, in hours. -/
def intersect_hours (a_start a_end b_start b_end : ℚ) : ℚ :=
  let s := max a_start b_start
  let e := min a_end b_end
  max 0 ((e - s) / 60)

/-- _compute_night_hours_from_intervals: night window anchored to the
start day ref, from ref at hora_nocturna_inicio to ref+1 at
hora_nocturna_fin; accumulate and round to two decimals. -/
def compute_night_hours_from_intervals (cfg : Config)
    (intervals : List (ℚ × ℚ)) (ref : ℤ) : ℚ :=
  let n_start : ℚ := 1440 * ref + 60 * cfg.hora_nocturna_inicio
  let n_end : ℚ := 1440 * (ref + 1) + 60 * cfg.hora_nocturna_fin
  round2 (intervals.foldl (fun total iv => total + intersect_hours iv.1 iv.2 n_start n_end) 0)

/-- _weekday_distribution: the only routine that reads extras_al_50.
It is defined by the source but never invoked. -/
def weekday_distribution (cfg : Config) (hours : ℚ) (has_time_off : Bool) :
    ℚ × ℚ × ℚ × ℚ :=
  if hours ≤ 0 then (0, 0, 0, 0)
  else
    let regular := min hours cfg.jornada_completa
    let extra := max 0 (hours - cfg.jornada_completa)
    let e50 := if extra ≤ cfg.extras_al_50 then extra else cfg.extras_al_50
    let e100 := if extra ≤ cfg.extras_al_50 then 0 else extra - cfg.extras_al_50
    let pending :=
      if ¬has_time_off ∧ hours < cfg.jornada_completa then cfg.jornada_completa - hours
      else 0
    (regular, e50, e100, pending)

/-- _calcular_tardanza_minutos on the modelled inputs: the scheduled
range is Option (start, end) parse outcomes, the punch is a display
string; every missing or unparseable piece degrades to 0. -/
def calcular_tardanza_minutos (time_range : Option (SchedStr × SchedStr))
    (shift_start : DispStr) : ℚ :=
  match time_range, shift_start.nonempty with
  | none, _ => 0
  | _, false => 0
  | some tr, true =>
      match tr.1 with
      | .invalid => 0
      | .valid h_oblig m_oblig =>
          match shift_start.hhmm with
          | none => 0
          | some (h_real, m_real) =>
              let minutos_obligatorio := h_oblig * 60 + m_oblig
              let minutos_real := h_real * 60 + m_real
              max 0 ((minutos_real : ℚ) - minutos_obligatorio)

/-- _calcular_llegada_anticipada_minutos, same conventions. -/
def calcular_llegada_anticipada_minutos (time_range : Option (SchedStr × SchedStr))
    (shift_start : DispStr) : ℚ :=
  match time_range, shift_start.nonempty with
  | none, _ => 0
  | _, false => 0
  | some tr, true =>
      match tr.1 with
      | .invalid => 0
      | .valid h_oblig m_oblig =>
          match shift_start.hhmm with
          | none => 0
          | some (h_real, m_real) =>
              let minutos_obligatorio := h_oblig * 60 + m_oblig
              let minutos_real := h_real * 60 + m_real
              max 0 ((minutos_obligatorio : ℚ) - minutos_real)

/-- _calcular_retiro_anticipado_minutos: zero on missing input; when
both display strings carry a [:10]-parsable date and the end date is
strictly later, the overnight exemption forces 0; else the clamped
scheduled-end minus actual-end comparison. -/
def calcular_retiro_anticipado_minutos (time_range : Option (SchedStr × SchedStr))
    (shift_start shift_end : DispStr) : ℚ :=
  match time_range, shift_end.nonempty with
  | none, _ => 0
  | _, false => 0
  | some tr, true =>
      match tr.2 with
      | .invalid => 0
      | .valid h_oblig m_oblig =>
          match shift_end.hhmm with
          | none => 0
          | some (h_end, m_end) =>
              let fecha_start := shift_start.date10
              let fecha_end := shift_end.date10
              match fecha_start, fecha_end with
              | some fs, some fe =>
                  if fs < fe then 0
                  else max 0 (((h_oblig * 60 + m_oblig : ℤ) : ℚ) - (h_end * 60 + m_end))
              | _, _ =>
                  max 0 (((h_oblig * 60 + m_oblig : ℤ) : ℚ) - (h_end * 60 + m_end))

/-- _minutos_a_horas. -/
def minutos_a_horas (minutos : ℚ) : ℚ := minutos / 60

/-- _horas_a_minutos: int(round(h * 60)). -/
def horas_a_minutos (horas : ℚ) : ℤ := pyRound (horas * 60)

/-- get_day_of_week_spanish via the weekday of the day index. -/
def get_day_of_week_spanish (d : ℤ) : String :=
  ["Lunes", "Martes", "Miércoles", "Jueves", "Viernes", "Sábado", "Domingo"].getD
    (d % 7).toNat ""

/-- The skip test at the top of the loop: a rest day that is not an API
holiday, with no time off, no absence, no scheduled slot, no punches. -/
def skip_cond (d : DaySummary) : Bool :=
  !d.isWorkday && d.holidaysAPI.isEmpty && d.timeOffRequests.isEmpty &&
    !(d.incidences.contains "ABSENT") && d.timeSlots.isEmpty && d.entries.isEmpty

/-- time_range: present exactly when the first slot has truthy start
and end times. -/
def time_range_of (d : DaySummary) : Option (SchedStr × SchedStr) :=
  match d.timeSlots with
  | [] => none
  | s :: _ =>
      match s.startTime, s.endTime with
      | some a, some b => some (a, b)
      | _, _ => none

/-- The categorizedHours loop: running (REGULAR, EXTRA) sums. -/
def categorize_sums (l : List CatHour) : ℚ × ℚ :=
  l.foldl
    (fun (p : ℚ × ℚ) ch =>
      if ch.category = "REGULAR" then (p.1 + ch.hours, p.2)
      else if ch.category = "EXTRA" then (p.1, p.2 + ch.hours)
      else p)
    (0, 0)

/-- Lines 525-534 of the source: round the raw EXTRA sum (when the
flag is on), optionally subtract the early-arrival minutes clamped at
zero, and round again. -/
def extra_final (cfg : Config) (extra_raw llegada_anticipada_mins : ℚ) : ℚ :=
  let extra_hours0 := maybe_redondear_extras cfg extra_raw
  let extra_hours1 :=
    if cfg.restar_llegada_anticipada_de_horas_extras then
      ((max 0 (horas_a_minutos extra_hours0 - ⌊llegada_anticipada_mins⌋) : ℤ) : ℚ) / 60
    else extra_hours0
  maybe_redondear_extras cfg extra_hours1

/-- night_hours of the loop: 0.0 when there is no interval. -/
def night_hours_of (cfg : Config) (d : DaySummary) (ref : ℤ) : ℚ :=
  if (get_intervals_from_entries d).isEmpty then 0
  else compute_night_hours_from_intervals cfg (get_intervals_from_entries d) ref

/-- The day-of-week overtime classification (lines 581-607):
(extra50, extra100, extra_night_50, extra_night_100) before the final
rounding pass. -/
def overtime_buckets (shift_start shift_end : DispStr) (dow : ℤ)
    (regular_hours extra_day_hours extra_night_hours : ℚ) : ℚ × ℚ × ℚ × ℚ :=
  if dow = 5 then
    ((split_extra_day_hours_at_13 shift_start shift_end extra_day_hours).1,
      (split_extra_day_hours_at_13 shift_start shift_end extra_day_hours).2,
      0, extra_night_hours)
  else if dow = 6 then
    (0, extra_day_hours, 0, extra_night_hours)
  else if 7 < regular_hours then
    ((if extra_day_hours < 1 then (0 : ℚ) else extra_day_hours), 0,
      (if extra_night_hours < 1 then (0 : ℚ) else extra_night_hours), 0)
  else (0, 0, 0, 0)

/-- The loop body of process_employee_data on an emitted (not skipped,
dated) record, producing the daily_data entry. -/
def emitDay (cfg : Config) (info : EmployeeInfo) (d : DaySummary) (ref : ℤ) :
    ProcessedDay :=
  let is_holiday_api := !d.holidaysAPI.isEmpty
  let has_time_off := !d.timeOffRequests.isEmpty
  let has_absence := d.incidences.contains "ABSENT"
  let is_rest_day := !d.isWorkday
  let time_range := time_range_of d
  let dow := ref % 7
  let hours_worked := d.hoursWorked
  let shift_start := (display_from_entries d ref).1
  let shift_end := (display_from_entries d ref).2
  let tardanza_mins := calcular_tardanza_minutos time_range shift_start
  let retiro_mins := calcular_retiro_anticipado_minutos time_range shift_start shift_end
  let llegada_anticipada_mins := calcular_llegada_anticipada_minutos time_range shift_start
  let tardanza_horas := minutos_a_horas tardanza_mins
  let retiro_horas := minutos_a_horas retiro_mins
  let regular_hours := (categorize_sums d.categorizedHours).1
  let extra_hours := extra_final cfg (categorize_sums d.categorizedHours).2 llegada_anticipada_mins
  let out_date := ref
  let is_holiday_output := is_holiday_api
  let holiday_name :=
    if is_holiday_output then
      (get_holiday_name cfg out_date d).or (get_holiday_name cfg ref d)
    else none
  let intervals := get_intervals_from_entries d
  let night_hours0 := night_hours_of cfg d ref
  let holiday_night_hours0 :=
    if is_holiday_output ∧ ¬intervals.isEmpty then
      compute_night_hours_from_intervals cfg intervals ref
    else 0
  let holiday_hours0 :=
    if is_holiday_output ∧ ¬intervals.isEmpty then max 0 (hours_worked - holiday_night_hours0)
    else 0
  let pending :=
    if ¬has_time_off ∧ ¬has_absence ∧ 0 < regular_hours then
      if regular_hours < cfg.jornada_completa then cfg.jornada_completa - regular_hours
      else 0
    else 0
  let extra_night_hours0 := min extra_hours night_hours0
  let extra_day_hours0 := max 0 (extra_hours - extra_night_hours0)
  let quad : ℚ × ℚ × ℚ × ℚ :=
    overtime_buckets shift_start shift_end dow regular_hours extra_day_hours0 extra_night_hours0
  { employee_id := info.employeeInternalId
    date := out_date
    day_of_week := get_day_of_week_spanish out_date
    hours_worked := hours_worked
    regular_hours := regular_hours
    extra_hours := extra_hours
    extra_hours_50 := maybe_redondear_extras cfg quad.1
    extra_hours_100 := maybe_redondear_extras cfg quad.2.1
    extra_hours_150 := 0
    night_hours := maybe_redondear_extras cfg night_hours0
    holiday_hours := maybe_redondear_extras cfg holiday_hours0
    pending_hours := if ¬(has_time_off ∨ has_absence) then pending else 0
    tardanza_horas := tardanza_horas
    retiro_anticipado_horas := retiro_horas
    is_holiday := is_holiday_output
    holiday_name := holiday_name
    is_rest_day := is_rest_day
    has_time_off := has_time_off
    time_off_name := if has_time_off then d.timeOffRequests.headD none else none
    has_absence := has_absence
    is_full_time := decide (regular_hours ≤ hours_worked)
    shift_start := shift_start
    shift_end := shift_end
    time_range := time_range
    extra_hours_day := maybe_redondear_extras cfg extra_day_hours0
    extra_hours_night := maybe_redondear_extras cfg extra_night_hours0
    extra_night_hours_50 := maybe_redondear_extras cfg quad.2.2.1
    extra_night_hours_100 := maybe_redondear_extras cfg quad.2.2.2
    holiday_night_hours := maybe_redondear_extras cfg holiday_night_hours0 }

/-- The totals accumulation block.  The source adds the raw pending
variable under the not-time-off, not-absence guard; under that guard it
coincides with pd.pending_hours, which is that variable gated by the
same condition. -/
def add_totals (t : Totals) (pd : ProcessedDay) : Totals :=
  { total_days_worked := t.total_days_worked + 1
    total_hours_worked := t.total_hours_worked + pd.hours_worked
    total_regular_hours := t.total_regular_hours + pd.regular_hours
    total_extra_hours_50 := t.total_extra_hours_50 + pd.extra_hours_50
    total_extra_hours_100 := t.total_extra_hours_100 + pd.extra_hours_100
    total_night_hours := t.total_night_hours + pd.night_hours
    total_holiday_hours := t.total_holiday_hours + pd.holiday_hours
    total_pending_hours := t.total_pending_hours +
      (if ¬pd.has_time_off ∧ ¬pd.has_absence then pd.pending_hours else 0)
    total_tardanza_horas := t.total_tardanza_horas + pd.tardanza_horas
    total_retiro_anticipado_horas := t.total_retiro_anticipado_horas + pd.retiro_anticipado_horas
    total_extra_day_hours := t.total_extra_day_hours + pd.extra_hours_day
    total_extra_night_hours := t.total_extra_night_hours + pd.extra_hours_night
    total_extra_night_hours_50 := t.total_extra_night_hours_50 + pd.extra_night_hours_50
    total_extra_night_hours_100 := t.total_extra_night_hours_100 + pd.extra_night_hours_100
    total_holiday_night_hours := t.total_holiday_night_hours + pd.holiday_night_hours }

/-- One loop iteration.  The bare datetime.strptime on a non-empty
reference string is the single place the loop can raise: it sits
outside every try/except of the source. -/
def step (cfg : Config) (info : EmployeeInfo) (st : PState) (d : DaySummary) :
    Except String PState :=
  if skip_cond d then .ok st
  else
    match d.referenceDate with
    | .empty => .ok st
    | .invalid => .error "ValueError: time data does not match format percent-Y-m-d"
    | .valid ref =>
        let pd := emitDay cfg info d ref
        .ok ⟨st.daily ++ [pd], add_totals st.totals pd⟩

/-- The loop over day_summaries. -/
def process_days (cfg : Config) (info : EmployeeInfo) :
    PState → List DaySummary → Except String PState
  | st, [] => .ok st
  | st, d :: ds =>
      match step cfg info st d with
      | .error e => .error e
      | .ok st2 => process_days cfg info st2 ds

/-- The totals dict as initialised at the top of process_employee_data,
seeded with the carried-over pending hours. -/
def init_totals (previous_pending_hours : ℚ) : Totals :=
  { total_days_worked := 0
    total_hours_worked := 0
    total_regular_hours := 0
    total_extra_hours_50 := 0
    total_extra_hours_100 := 0
    total_night_hours := 0
    total_holiday_hours := 0
    total_pending_hours := previous_pending_hours
    total_tardanza_horas := 0
    total_retiro_anticipado_horas := 0
    total_extra_day_hours := 0
    total_extra_night_hours := 0
    total_extra_night_hours_50 := 0
    total_extra_night_hours_100 := 0
    total_holiday_night_hours := 0 }

/-- process_employee_data.  The holidays set parameter is accepted and
defaulted exactly as in the source, where it is never read after the
or-set() normalisation (its only consumer, _crosses_into_holiday_local_end,
is never called). -/
def process_employee_data (cfg : Config) (day_summaries : List DaySummary)
    (employee_info : EmployeeInfo) (previous_pending_hours : ℚ)
    (holidays : List ℤ) : Except String Output :=
  let _ := holidays
  match process_days cfg employee_info ⟨[], init_totals previous_pending_hours⟩ day_summaries with
  | .error e => .error e
  | .ok st => .ok ⟨employee_info, st.daily, st.totals⟩

/-- The daily_data of a successful run, [] on a raised run. -/
def ok_daily : Except String Output → List ProcessedDay
  | .ok o => o.daily_data
  | .error _ => []

/-- Sample configuration used by concrete witnesses: the defaults named
by the spec (config.default_config itself is not in the repository). -/
def sampleConfig : Config :=
  { jornada_completa := 8
    hora_nocturna_inicio := 21
    hora_nocturna_fin := 6
    sabado_limite := 13
    tolerancia_minutos := 15
    fragmento_minutos := 30
    holiday_names := []
    extras_al_50 := 2
    restar_llegada_anticipada_de_horas_extras := true
    redondear_extras := false }

def sampleInfo : EmployeeInfo := ⟨some "E1"⟩

/-- A plain workday record (valid date on a Monday, no punches, no
categorized hours, no slots, nothing else). -/
def zeroRec : DaySummary :=
  { referenceDate := .valid 0
    entries := []
    timeSlots := []
    categorizedHours := []
    holidaysAPI := []
    timeOffRequests := []
    incidences := []
    isWorkday := true
    hoursWorked := 0 }

/-- A Saturday record (day index 5): shift 08:00-15:00 (minute 7680 =
day 5 at 08:00, minute 8100 = day 5 at 15:00), 3 categorized EXTRA
hours at the tail of the shift, no night overlap. -/
def satRec : DaySummary :=
  { zeroRec with
    referenceDate := .valid 5
    entries := [⟨.START, some (.valid 7680)⟩, ⟨.END, some (.valid 8100)⟩]
    categorizedHours := [⟨"EXTRA", 3⟩]
    hoursWorked := 7 }

/-- A true empty rest day: not a workday, nothing else on the record. -/
def restRec : DaySummary := { zeroRec with isWorkday := false, referenceDate := .valid 3 }

/-- A workday whose reference-date string is present but rejected by
strptime. -/
def badRec : DaySummary := { zeroRec with referenceDate := .invalid }

/-- A workday whose punch timestamps are present but unparseable. -/
def badTimesRec : DaySummary :=
  { zeroRec with entries := [⟨.START, some .invalid⟩, ⟨.END, some .invalid⟩] }

/-- A record whose first END punch parses to a datetime three days
before its first START punch. -/
def endBeforeRec : DaySummary :=
  { zeroRec with entries := [⟨.START, some (.valid 7680)⟩, ⟨.END, some (.valid 3000)⟩] }

/-- A record with START 08:00 and END 02:00 of the same calendar day:
the midnight-crossing example. -/
def overnightRec : DaySummary :=
  { zeroRec with entries := [⟨.START, some (.valid 480)⟩, ⟨.END, some (.valid 120)⟩] }

/-! ### Basic facts about the rounding primitives -/

theorem pyRound_intCast (n : ℤ) : pyRound (n : ℚ) = n := by
  simp [pyRound]

theorem pyRound_nonneg {q : ℚ} (hq : 0 ≤ q) : 0 ≤ pyRound q := by
  have hf : (0 : ℤ) ≤ ⌊q⌋ := Int.floor_nonneg.mpr hq
  unfold pyRound
  split_ifs <;> omega

theorem pyRound_err (q : ℚ) : |(pyRound q : ℚ) - q| ≤ 1/2 := by
  have h0 : (⌊q⌋ : ℚ) ≤ q := Int.floor_le q
  have h1 : q < ⌊q⌋ + 1 := Int.lt_floor_add_one q
  unfold pyRound
  split_ifs with ha hb hc <;> rw [abs_sub_le_iff] <;> push_cast <;>
    constructor <;> linarith

theorem round2_nonneg {q : ℚ} (hq : 0 ≤ q) : 0 ≤ round2 q := by
  have : (0 : ℤ) ≤ pyRound (q * 100) := pyRound_nonneg (by linarith)
  unfold round2
  positivity

/-- Decomposition of the positive branch of the half-hour rounding:
minute total, whole hours and leftover. -/
theorem redondear_pos (cfg : Config) {x : ℚ} (hx : 0 < x) :
    redondear_extras_a_media_hora cfg x =
      if cfg.fragmento_minutos ≤ pyRound (x * 60) % 60 then
        ((pyRound (x * 60) / 60 : ℤ) : ℚ) + 1/2
      else ((pyRound (x * 60) / 60 : ℤ) : ℚ) := by
  rw [redondear_extras_a_media_hora, if_neg (by linarith)]

theorem redondear_nonneg (cfg : Config) (x : ℚ) :
    0 ≤ redondear_extras_a_media_hora cfg x := by
  unfold redondear_extras_a_media_hora
  split_ifs with h1 h2
  · exact le_refl 0
  all_goals
    have hm : (0 : ℤ) ≤ pyRound (x * 60) := pyRound_nonneg (by nlinarith [not_le.mp h1])
    have hd : (0 : ℤ) ≤ pyRound (x * 60) / 60 := Int.ediv_nonneg hm (by norm_num)
    have hdq : (0 : ℚ) ≤ ((pyRound (x * 60) / 60 : ℤ) : ℚ) := by exact_mod_cast hd
    linarith

theorem maybe_redondear_nonneg (cfg : Config) {x : ℚ} (hx : 0 ≤ x) :
    0 ≤ maybe_redondear_extras cfg x := by
  unfold maybe_redondear_extras
  split_ifs
  · exact redondear_nonneg cfg x
  · exact hx

/-- Every output of the half-hour rounding is a nonnegative whole or
half hour. -/
theorem redondear_shape (cfg : Config) (x : ℚ) :
    ∃ n : ℤ, 0 ≤ n ∧ (redondear_extras_a_media_hora cfg x = n ∨
      redondear_extras_a_media_hora cfg x = n + 1/2) := by
  unfold redondear_extras_a_media_hora
  split_ifs with h1 h2
  · exact ⟨0, le_refl 0, Or.inl (by norm_num)⟩
  all_goals
    refine ⟨pyRound (x * 60) / 60, Int.ediv_nonneg
      (pyRound_nonneg (by nlinarith [not_le.mp h1])) (by norm_num), ?_⟩
  · exact Or.inr rfl
  · exact Or.inl rfl

/-- A nonnegative whole hour is a fixed point when the fragment cut is
positive. -/
theorem redondear_fix_int (cfg : Config) (hc : 1 ≤ cfg.fragmento_minutos)
    {n : ℤ} (hn : 0 ≤ n) :
    redondear_extras_a_media_hora cfg (n : ℚ) = n := by
  rcases eq_or_lt_of_le hn with h | h
  · rw [redondear_extras_a_media_hora, if_pos (by rw [← h]; norm_num), ← h]
    norm_num
  · have hx : (0 : ℚ) < n := by exact_mod_cast h
    rw [redondear_pos cfg hx]
    have hcast : ((n : ℚ) * 60) = ((n * 60 : ℤ) : ℚ) := by push_cast; ring
    rw [hcast, pyRound_intCast]
    rw [if_neg (by omega)]
    congr 1
    omega

/-- A nonnegative half-past value is a fixed point when the fragment
cut is at most 30. -/
theorem redondear_fix_half (cfg : Config) (hc : cfg.fragmento_minutos ≤ 30)
    {n : ℤ} (hn : 0 ≤ n) :
    redondear_extras_a_media_hora cfg ((n : ℚ) + 1/2) = (n : ℚ) + 1/2 := by
  have hx : (0 : ℚ) < (n : ℚ) + 1/2 := by
    have : (0 : ℚ) ≤ (n : ℚ) := by exact_mod_cast hn
    linarith
  rw [redondear_pos cfg hx]
  have hcast : (((n : ℚ) + 1/2) * 60) = ((n * 60 + 30 : ℤ) : ℚ) := by push_cast; ring
  rw [hcast, pyRound_intCast]
  rw [if_pos (by omega)]
  have : (n * 60 + 30) / 60 = n := by omega
  rw [this]

/-- One application of the half-hour rounding moves a nonnegative value
by strictly less than one hour. -/
theorem redondear_err (cfg : Config) {x : ℚ} (hx : 0 ≤ x) :
    |redondear_extras_a_media_hora cfg x - x| < 1 := by
  rcases eq_or_lt_of_le hx with h | h
  · rw [redondear_extras_a_media_hora, if_pos (by linarith), ← h]
    norm_num
  · rw [redondear_pos cfg h]
    have herr := pyRound_err (x * 60)
    rw [abs_sub_le_iff] at herr
    have hdm := Int.ediv_add_emod (pyRound (x * 60)) 60
    have hr0 : 0 ≤ pyRound (x * 60) % 60 := Int.emod_nonneg _ (by norm_num)
    have hr1 : pyRound (x * 60) % 60 < 60 := Int.emod_lt_of_pos _ (by norm_num)
    have hcast : ((pyRound (x * 60) : ℚ)) =
        60 * ((pyRound (x * 60) / 60 : ℤ) : ℚ) + ((pyRound (x * 60) % 60 : ℤ) : ℚ) := by
      exact_mod_cast congrArg (fun z : ℤ => (z : ℚ)) hdm.symm
    have hr0q : (0 : ℚ) ≤ ((pyRound (x * 60) % 60 : ℤ) : ℚ) := by exact_mod_cast hr0
    have hr59 : pyRound (x * 60) % 60 ≤ 59 := by omega
    have hr59q : ((pyRound (x * 60) % 60 : ℤ) : ℚ) ≤ 59 := by exact_mod_cast hr59
    split_ifs <;> rw [abs_sub_lt_iff] <;> constructor <;> linarith

/-- With a fragment cut between 1 and 30 the move is at most 59/120 of
an hour (strictly below half an hour). -/
theorem redondear_err_tight (cfg : Config) (hc1 : 1 ≤ cfg.fragmento_minutos)
    (hc2 : cfg.fragmento_minutos ≤ 30) {x : ℚ} (hx : 0 ≤ x) :
    |redondear_extras_a_media_hora cfg x - x| ≤ 59/120 := by
  rcases eq_or_lt_of_le hx with h | h
  · rw [redondear_extras_a_media_hora, if_pos (by linarith), ← h]
    norm_num
  · rw [redondear_pos cfg h]
    have herr := pyRound_err (x * 60)
    rw [abs_sub_le_iff] at herr
    have hdm := Int.ediv_add_emod (pyRound (x * 60)) 60
    have hr0 : 0 ≤ pyRound (x * 60) % 60 := Int.emod_nonneg _ (by norm_num)
    have hr1 : pyRound (x * 60) % 60 < 60 := Int.emod_lt_of_pos _ (by norm_num)
    have hcast : ((pyRound (x * 60) : ℚ)) =
        60 * ((pyRound (x * 60) / 60 : ℤ) : ℚ) + ((pyRound (x * 60) % 60 : ℤ) : ℚ) := by
      exact_mod_cast congrArg (fun z : ℤ => (z : ℚ)) hdm.symm
    split_ifs with hcut
    · have hrlo : 1 ≤ pyRound (x * 60) % 60 := le_trans hc1 hcut
      have hrloq : (1 : ℚ) ≤ ((pyRound (x * 60) % 60 : ℤ) : ℚ) := by exact_mod_cast hrlo
      have hr1q : ((pyRound (x * 60) % 60 : ℤ) : ℚ) < 60 := by exact_mod_cast hr1
      have hr1q2 : ((pyRound (x * 60) % 60 : ℤ) : ℚ) ≤ 59 := by
        have : pyRound (x * 60) % 60 ≤ 59 := by omega
        exact_mod_cast this
      rw [abs_sub_le_iff]
      constructor <;> linarith
    · have hrhi : pyRound (x * 60) % 60 ≤ 29 := by omega
      have hrhiq : ((pyRound (x * 60) % 60 : ℤ) : ℚ) ≤ 29 := by exact_mod_cast hrhi
      have hr0q : (0 : ℚ) ≤ ((pyRound (x * 60) % 60 : ℤ) : ℚ) := by exact_mod_cast hr0
      rw [abs_sub_le_iff]
      constructor <;> linarith

/-! ### Night-window accumulation -/

theorem foldl_add_eq_sum (g : ℚ × ℚ → ℚ) (l : List (ℚ × ℚ)) :
    ∀ acc : ℚ, l.foldl (fun t iv => t + g iv) acc = acc + (l.map g).sum := by
  induction l with
  | nil => intro acc; simp
  | cons iv l ih =>
      intro acc
      simp only [List.foldl_cons, List.map_cons, List.sum_cons, ih]
      ring

theorem intersect_hours_nonneg (a b c d : ℚ) : 0 ≤ intersect_hours a b c d :=
  le_max_left 0 _

theorem compute_night_nonneg (cfg : Config) (intervals : List (ℚ × ℚ)) (d : ℤ) :
    0 ≤ compute_night_hours_from_intervals cfg intervals d := by
  unfold compute_night_hours_from_intervals
  apply round2_nonneg
  rw [foldl_add_eq_sum, zero_add]
  apply List.sum_nonneg
  intro x hx
  obtain ⟨iv, _, rfl⟩ := List.mem_map.mp hx
  exact intersect_hours_nonneg _ _ _ _

/-- C4, counterexample: with a configured fragment-size threshold of 45
minutes, rounding 0.75 h gives 0.5 h, and rounding again gives 0 h, so
the rounding is not idempotent for every configured threshold. -/
theorem C4_counterexample :
    redondear_extras_a_media_hora { sampleConfig with fragmento_minutos := 45 } (3/4) = 1/2 ∧
    redondear_extras_a_media_hora { sampleConfig with fragmento_minutos := 45 }
      (redondear_extras_a_media_hora { sampleConfig with fragmento_minutos := 45 } (3/4)) = 0 ∧
    (0 : ℚ) ≠ 1/2 := by
  have h1 : redondear_extras_a_media_hora { sampleConfig with fragmento_minutos := 45 } (3/4)
      = 1/2 := by
    norm_num [redondear_extras_a_media_hora, pyRound, sampleConfig]
  refine ⟨h1, ?_, by norm_num⟩
  rw [h1]
  norm_num [redondear_extras_a_media_hora, pyRound, sampleConfig]

/-- C4 (amended): half-hour fragment rounding is idempotent on every
nonnegative input for every fragment-size threshold between 1 and 30
minutes (in particular the default 30); thresholds strictly between 30
and 60 minutes break idempotence. -/
theorem C4_half_hour_rounding_idempotent (cfg : Config)
    (hc1 : 1 ≤ cfg.fragmento_minutos) (hc2 : cfg.fragmento_minutos ≤ 30)
    (x : ℚ) (hx : 0 ≤ x) :
    redondear_extras_a_media_hora cfg (redondear_extras_a_media_hora cfg x) =
      redondear_extras_a_media_hora cfg x := by
  have _hx := hx
  obtain ⟨n, hn, h | h⟩ := redondear_shape cfg x
  · rw [h]; exact redondear_fix_int cfg hc1 hn
  · rw [h]; exact redondear_fix_half cfg hc2 hn

/-- Witness for C4 at the default threshold 30 and x = 1.9 h. -/
theorem C4_half_hour_rounding_idempotent_witness :
    1 ≤ sampleConfig.fragmento_minutos ∧ sampleConfig.fragmento_minutos ≤ 30 ∧
    (0 : ℚ) ≤ 19/10 ∧
    redondear_extras_a_media_hora sampleConfig
      (redondear_extras_a_media_hora sampleConfig (19/10)) =
      redondear_extras_a_media_hora sampleConfig (19/10) :=
  ⟨by decide, by decide, by norm_num,
    C4_half_hour_rounding_idempotent sampleConfig (by decide) (by decide) (19/10) (by norm_num)⟩

/-- C8: the night-hours overlap is the two-decimal rounding of the sum,
over the work intervals, of the clamped overlap with the window from
the reference date at hora_nocturna_inicio to the next day at
hora_nocturna_fin; the empty list gives 0.0, and the 20:00-23:00 shift
against the 21:00-06:00 window gives exactly 2.0. -/
theorem C8_night_window_overlap :
    (∀ (cfg : Config), cfg.WF → ∀ (intervals : List (ℚ × ℚ)) (d : ℤ),
      compute_night_hours_from_intervals cfg intervals d =
        round2 ((intervals.map (fun iv =>
          max 0 ((min iv.2 (1440 * ((d : ℚ) + 1) + 60 * cfg.hora_nocturna_fin) -
                  max iv.1 (1440 * (d : ℚ) + 60 * cfg.hora_nocturna_inicio)) / 60))).sum)) ∧
    (∀ (cfg : Config), cfg.WF → ∀ d : ℤ,
      compute_night_hours_from_intervals cfg [] d = 0) ∧
    compute_night_hours_from_intervals sampleConfig
      [(5 * 1440 + 1200, 5 * 1440 + 1380)] 5 = 2 := by
  refine ⟨?_, ?_, ?_⟩
  · intro cfg _ intervals d
    simp only [compute_night_hours_from_intervals]
    rw [foldl_add_eq_sum, zero_add]
    rfl
  · intro cfg _ d
    norm_num [compute_night_hours_from_intervals, round2, pyRound]
  · norm_num [compute_night_hours_from_intervals, intersect_hours, round2, pyRound,
      sampleConfig]

/-- Witness for C8 under the sample (spec-default) configuration. -/
theorem C8_night_window_overlap_witness :
    sampleConfig.WF ∧
    compute_night_hours_from_intervals sampleConfig [] 0 = 0 :=
  ⟨by decide, C8_night_window_overlap.2.1 sampleConfig (by decide) 0⟩

/-! ### The per-record step and the loop -/

theorem step_skip_eq (cfg : Config) (info : EmployeeInfo) (st : PState)
    {d : DaySummary} (h : skip_cond d = true) : step cfg info st d = .ok st := by
  simp [step, h]

theorem step_empty_eq (cfg : Config) (info : EmployeeInfo) (st : PState)
    {d : DaySummary} (h1 : skip_cond d = false) (h2 : d.referenceDate = .empty) :
    step cfg info st d = .ok st := by
  simp [step, h1, h2]

theorem step_emit_eq (cfg : Config) (info : EmployeeInfo) (st : PState)
    {d : DaySummary} {ref : ℤ} (h1 : skip_cond d = false)
    (h2 : d.referenceDate = .valid ref) :
    step cfg info st d =
      .ok ⟨st.daily ++ [emitDay cfg info d ref],
           add_totals st.totals (emitDay cfg info d ref)⟩ := by
  simp [step, h1, h2]

/-- Characterisation of a successful step: the daily list is unchanged
or extended by the emitted day. -/
theorem step_daily_cases (cfg : Config) (info : EmployeeInfo) (st : PState)
    (d : DaySummary) (st2 : PState) (h : step cfg info st d = .ok st2) :
    st2.daily = st.daily ∨
      ∃ ref : ℤ, d.referenceDate = .valid ref ∧
        st2.daily = st.daily ++ [emitDay cfg info d ref] := by
  by_cases hs : skip_cond d = true
  · rw [step_skip_eq cfg info st hs] at h
    cases h
    exact Or.inl rfl
  · rw [Bool.not_eq_true] at hs
    cases href : d.referenceDate with
    | empty =>
        rw [step_empty_eq cfg info st hs href] at h
        cases h
        exact Or.inl rfl
    | invalid => simp [step, hs, href] at h
    | valid ref =>
        rw [step_emit_eq cfg info st hs href] at h
        cases h
        exact Or.inr ⟨ref, rfl, rfl⟩

/-- Deleting a skipped record from anywhere in the list does not change
the loop result. -/
theorem process_days_skip (cfg : Config) (info : EmployeeInfo) {r : DaySummary}
    (hr : skip_cond r = true) :
    ∀ (l1 l2 : List DaySummary) (st : PState),
      process_days cfg info st (l1 ++ r :: l2) = process_days cfg info st (l1 ++ l2) := by
  intro l1
  induction l1 with
  | nil =>
      intro l2 st
      simp only [List.nil_append, process_days, step_skip_eq cfg info st hr]
  | cons a l1 ih =>
      intro l2 st
      simp only [List.cons_append, process_days]
      cases step cfg info st a with
      | error e => rfl
      | ok st2 => exact ih l2 st2

/-- Lifting a per-emitted-day property through the loop. -/
theorem process_days_mem {P : ProcessedDay → Prop} (cfg : Config)
    (info : EmployeeInfo)
    (hemit : ∀ (d : DaySummary) (ref : ℤ), P (emitDay cfg info d ref)) :
    ∀ (days : List DaySummary) (st out : PState),
      process_days cfg info st days = .ok out →
      (∀ pd ∈ st.daily, P pd) → ∀ pd ∈ out.daily, P pd := by
  intro days
  induction days with
  | nil =>
      intro st out h hst
      rw [process_days] at h
      cases h
      exact hst
  | cons d ds ih =>
      intro st out h hst
      rw [process_days] at h
      cases hs : step cfg info st d with
      | error e => rw [hs] at h; cases h
      | ok st2 =>
          rw [hs] at h
          refine ih st2 out h ?_
          intro pd hpd
          rcases step_daily_cases cfg info st d st2 hs with hsame | ⟨ref, _, happ⟩
          · exact hst pd (hsame ▸ hpd)
          · rw [happ] at hpd
            rcases List.mem_append.mp hpd with hin | hnew
            · exact hst pd hin
            · rw [List.mem_singleton.mp hnew]
              exact hemit d ref

/-- Lifting a per-emitted-day property to every day of a successful
process_employee_data run. -/
theorem process_mem {P : ProcessedDay → Prop} (cfg : Config)
    (days : List DaySummary) (info : EmployeeInfo) (prev : ℚ) (hol : List ℤ)
    (hemit : ∀ (d : DaySummary) (ref : ℤ), P (emitDay cfg info d ref)) :
    ∀ pd ∈ ok_daily (process_employee_data cfg days info prev hol), P pd := by
  intro pd hpd
  unfold process_employee_data ok_daily at hpd
  revert hpd
  cases h : process_days cfg info ⟨[], init_totals prev⟩ days with
  | error e => intro hpd; simp at hpd
  | ok st =>
      intro hpd
      simp only at hpd
      exact process_days_mem cfg info hemit days ⟨[], init_totals prev⟩ st h
        (by intro x hx; simp at hx) pd hpd

/-- A one-record run with an emitted record yields exactly that day. -/
theorem ok_daily_single (cfg : Config) (info : EmployeeInfo) (prev : ℚ)
    (hol : List ℤ) {d : DaySummary} {ref : ℤ} (h1 : skip_cond d = false)
    (h2 : d.referenceDate = .valid ref) :
    ok_daily (process_employee_data cfg [d] info prev hol) =
      [emitDay cfg info d ref] := by
  simp [process_employee_data, process_days, ok_daily,
    step_emit_eq cfg info ⟨[], init_totals prev⟩ h1 h2]

/-- C6: a record is skipped exactly under the rest-day emptiness test:
deleting a record that satisfies it leaves the whole result (daily_data
and every total) unchanged, and any record that fails it and carries a
parseable reference date is emitted as exactly one appended
ProcessedDay with the totals folded in. -/
theorem C6_skip_rule :
    (∀ (cfg : Config) (info : EmployeeInfo) (prev : ℚ) (hol : List ℤ)
        (l1 l2 : List DaySummary) (r : DaySummary), skip_cond r = true →
      process_employee_data cfg (l1 ++ r :: l2) info prev hol =
        process_employee_data cfg (l1 ++ l2) info prev hol) ∧
    (∀ (cfg : Config) (info : EmployeeInfo) (st : PState) (r : DaySummary)
        (ref : ℤ), skip_cond r = false → r.referenceDate = .valid ref →
      step cfg info st r =
        .ok ⟨st.daily ++ [emitDay cfg info r ref],
             add_totals st.totals (emitDay cfg info r ref)⟩) := by
  constructor
  · intro cfg info prev hol l1 l2 r hr
    unfold process_employee_data
    rw [process_days_skip cfg info hr]
  · intro cfg info st r ref h1 h2
    exact step_emit_eq cfg info st h1 h2

/-- Witness for C6: the empty rest day is dropped, the plain workday is
emitted. -/
theorem C6_skip_rule_witness :
    skip_cond restRec = true ∧
    process_employee_data sampleConfig [restRec] sampleInfo 0 [] =
      process_employee_data sampleConfig [] sampleInfo 0 [] ∧
    skip_cond zeroRec = false ∧
    step sampleConfig sampleInfo ⟨[], init_totals 0⟩ zeroRec =
      .ok ⟨[emitDay sampleConfig sampleInfo zeroRec 0],
           add_totals (init_totals 0) (emitDay sampleConfig sampleInfo zeroRec 0)⟩ :=
  ⟨by decide,
    C6_skip_rule.1 sampleConfig sampleInfo 0 [] [] [] restRec (by decide),
    by decide,
    C6_skip_rule.2 sampleConfig sampleInfo ⟨[], init_totals 0⟩ zeroRec 0 (by decide) rfl⟩

/-- The pending-hours field of an emitted day, in closed form: the
shortfall applies only with no time off, no absence, and strictly
positive regular hours below the full workday. -/
theorem emitDay_pending (cfg : Config) (info : EmployeeInfo) (d : DaySummary)
    (ref : ℤ) :
    (emitDay cfg info d ref).pending_hours =
      if ¬(emitDay cfg info d ref).has_time_off ∧ ¬(emitDay cfg info d ref).has_absence ∧
          0 < (emitDay cfg info d ref).regular_hours ∧
          (emitDay cfg info d ref).regular_hours < cfg.jornada_completa then
        cfg.jornada_completa - (emitDay cfg info d ref).regular_hours
      else 0 := by
  simp only [emitDay]
  split_ifs <;> tauto

/-- C2 (amended): for every emitted day, pending equals
jornada_completa minus regular_hours exactly when there is no time
off, no absence, and 0 < regular_hours < jornada_completa; in every
other case (including regular_hours = 0) it is 0. -/
theorem C2_pending_shortfall (cfg : Config) (days : List DaySummary)
    (info : EmployeeInfo) (prev : ℚ) (hol : List ℤ) :
    ∀ pd ∈ ok_daily (process_employee_data cfg days info prev hol),
      pd.pending_hours =
        if ¬pd.has_time_off ∧ ¬pd.has_absence ∧ 0 < pd.regular_hours ∧
            pd.regular_hours < cfg.jornada_completa then
          cfg.jornada_completa - pd.regular_hours
        else 0 :=
  process_mem cfg days info prev hol (fun d ref => emitDay_pending cfg info d ref)

/-- Witness for C2 on a concrete one-day run. -/
theorem C2_pending_shortfall_witness :
    emitDay sampleConfig sampleInfo zeroRec 0 ∈
      ok_daily (process_employee_data sampleConfig [zeroRec] sampleInfo 0 []) ∧
    (emitDay sampleConfig sampleInfo zeroRec 0).pending_hours =
      if ¬(emitDay sampleConfig sampleInfo zeroRec 0).has_time_off ∧
          ¬(emitDay sampleConfig sampleInfo zeroRec 0).has_absence ∧
          0 < (emitDay sampleConfig sampleInfo zeroRec 0).regular_hours ∧
          (emitDay sampleConfig sampleInfo zeroRec 0).regular_hours <
            sampleConfig.jornada_completa then
        sampleConfig.jornada_completa - (emitDay sampleConfig sampleInfo zeroRec 0).regular_hours
      else 0 :=
  ⟨by rw [ok_daily_single sampleConfig sampleInfo 0 [] (by decide) rfl]; exact List.mem_singleton.mpr rfl,
    C2_pending_shortfall sampleConfig [zeroRec] sampleInfo 0 []
      (emitDay sampleConfig sampleInfo zeroRec 0)
      (by rw [ok_daily_single sampleConfig sampleInfo 0 [] (by decide) rfl]
          exact List.mem_singleton.mpr rfl)⟩

/-- C2, counterexample: an emitted workday with no time off, no
absence and regular_hours = 0 (below the full workday) carries
pending_hours = 0, not jornada_completa - 0: the formula of the claim
fails at regular_hours = 0 because the source also demands
regular_hours > 0. -/
theorem C2_pending_counterexample :
    emitDay sampleConfig sampleInfo zeroRec 0 ∈
      ok_daily (process_employee_data sampleConfig [zeroRec] sampleInfo 0 []) ∧
    (emitDay sampleConfig sampleInfo zeroRec 0).has_time_off = false ∧
    (emitDay sampleConfig sampleInfo zeroRec 0).has_absence = false ∧
    (emitDay sampleConfig sampleInfo zeroRec 0).regular_hours = 0 ∧
    (0 : ℚ) < sampleConfig.jornada_completa ∧
    (emitDay sampleConfig sampleInfo zeroRec 0).pending_hours = 0 ∧
    (0 : ℚ) ≠ sampleConfig.jornada_completa - 0 := by
  refine ⟨?_, rfl, rfl, ?_, by norm_num [sampleConfig], ?_, by norm_num [sampleConfig]⟩
  · rw [ok_daily_single sampleConfig sampleInfo 0 [] (by decide) rfl]
    exact List.mem_singleton.mpr rfl
  · rfl
  · norm_num [emitDay, time_range_of, display_from_entries, first_entry_pair_local,
      first_iso_scan, parse_slot, dtToDisp, refDisp, get_intervals_from_entries,
      calcular_tardanza_minutos, calcular_retiro_anticipado_minutos,
      calcular_llegada_anticipada_minutos, minutos_a_horas, horas_a_minutos,
      categorize_sums, extra_final, night_hours_of, maybe_redondear_extras,
      redondear_extras_a_media_hora, compute_night_hours_from_intervals,
      intersect_hours, round2, pyRound, sampleConfig, sampleInfo, zeroRec]

/-- Every component of the computation reads the configuration only
through its projections, so replacing the extras_al_50 field leaves the
step function literally unchanged. -/
theorem step_extras_al_50_irrel (cfg : Config) (v : ℚ) (info : EmployeeInfo)
    (st : PState) (d : DaySummary) :
    step { cfg with extras_al_50 := v } info st d = step cfg info st d := rfl

theorem process_days_extras_al_50_irrel (cfg : Config) (v : ℚ)
    (info : EmployeeInfo) :
    ∀ (days : List DaySummary) (st : PState),
      process_days { cfg with extras_al_50 := v } info st days =
        process_days cfg info st days := by
  intro days
  induction days with
  | nil => intro st; rfl
  | cons d ds ih =>
      intro st
      rw [process_days, process_days, step_extras_al_50_irrel]
      cases step cfg info st d with
      | error e => rfl
      | ok st2 => exact ih st2

/-- C10: the result of process_employee_data does not depend on the
configured extras_al_50 ceiling; its only reader,
_weekday_distribution, is genuinely ceiling-sensitive but is never
invoked by the processing loop. -/
theorem C10_extras_al_50_independence :
    (∀ (cfg : Config) (v : ℚ) (days : List DaySummary) (info : EmployeeInfo)
        (prev : ℚ) (hol : List ℤ),
      process_employee_data { cfg with extras_al_50 := v } days info prev hol =
        process_employee_data cfg days info prev hol) ∧
    weekday_distribution { sampleConfig with extras_al_50 := 4 } 14 false ≠
      weekday_distribution sampleConfig 14 false := by
  constructor
  · intro cfg v days info prev hol
    unfold process_employee_data
    rw [process_days_extras_al_50_irrel]
  · intro h
    have h2 := congrArg (fun q : ℚ × ℚ × ℚ × ℚ => q.2.1) h
    revert h2
    norm_num [weekday_distribution, sampleConfig, min_def, max_def]

/-- The min/max overtime split of lines 569-570 plus the later rounding
pass: exact without rounding, within one rounding move per bucket with
it. -/
theorem split_invariant (cfg : Config) (e n : ℚ) (hn : 0 ≤ n)
    (he : cfg.redondear_extras = true → 0 ≤ e) :
    (cfg.redondear_extras = false →
      maybe_redondear_extras cfg (max 0 (e - min e n)) +
        maybe_redondear_extras cfg (min e n) = e) ∧
    |maybe_redondear_extras cfg (max 0 (e - min e n)) +
        maybe_redondear_extras cfg (min e n) - e| < 2 ∧
    (1 ≤ cfg.fragmento_minutos → cfg.fragmento_minutos ≤ 30 →
      |maybe_redondear_extras cfg (max 0 (e - min e n)) +
          maybe_redondear_extras cfg (min e n) - e| < 1) := by
  have key : max 0 (e - min e n) + min e n = e := by
    rcases le_total e n with h | h
    · simp [min_eq_left h]
    · rw [min_eq_right h, max_eq_right (by linarith)]
      ring
  cases hflag : cfg.redondear_extras with
  | false =>
      simp only [maybe_redondear_extras, hflag, Bool.false_eq_true, if_false, key]
      refine ⟨fun _ => trivial, by norm_num, fun _ _ => by norm_num⟩
  | true =>
      have he0 : 0 ≤ e := he hflag
      have hed : 0 ≤ max 0 (e - min e n) := le_max_left 0 _
      have hen : 0 ≤ min e n := le_min he0 hn
      simp only [maybe_redondear_extras, hflag, if_true]
      have h1 := redondear_err cfg hed
      have h2 := redondear_err cfg hen
      have t1 := redondear_err_tight cfg
      constructor
      · intro hcontra
        exact absurd hcontra (by simp [hflag])
      constructor
      · rw [abs_lt] at h1 h2 ⊢
        constructor <;> linarith
      · intro hc1 hc2
        have u1 := redondear_err_tight cfg hc1 hc2 hed
        have u2 := redondear_err_tight cfg hc1 hc2 hen
        rw [abs_le] at u1 u2
        rw [abs_lt]
        constructor <;> linarith

/-- The day/night overtime decomposition of an emitted day. -/
theorem emitDay_extra_invariant (cfg : Config) (info : EmployeeInfo)
    (d : DaySummary) (ref : ℤ) :
    (cfg.redondear_extras = false →
      (emitDay cfg info d ref).extra_hours_day +
        (emitDay cfg info d ref).extra_hours_night =
        (emitDay cfg info d ref).extra_hours) ∧
    |(emitDay cfg info d ref).extra_hours_day +
        (emitDay cfg info d ref).extra_hours_night -
        (emitDay cfg info d ref).extra_hours| < 2 ∧
    (1 ≤ cfg.fragmento_minutos → cfg.fragmento_minutos ≤ 30 →
      |(emitDay cfg info d ref).extra_hours_day +
          (emitDay cfg info d ref).extra_hours_night -
          (emitDay cfg info d ref).extra_hours| < 1) := by
  have hn : 0 ≤ night_hours_of cfg d ref := by
    unfold night_hours_of
    split_ifs
    · norm_num
    · exact compute_night_nonneg cfg _ ref
  have he : cfg.redondear_extras = true →
      0 ≤ extra_final cfg (categorize_sums d.categorizedHours).2
        (calcular_llegada_anticipada_minutos (time_range_of d)
          (display_from_entries d ref).1) := by
    intro hflag
    unfold extra_final
    simp only [maybe_redondear_extras, hflag, if_true]
    exact redondear_nonneg cfg _
  have h := split_invariant cfg
    (extra_final cfg (categorize_sums d.categorizedHours).2
      (calcular_llegada_anticipada_minutos (time_range_of d)
        (display_from_entries d ref).1))
    (night_hours_of cfg d ref) hn he
  simpa only [emitDay] using h

/-- C5: for every emitted day, extra_hours_day + extra_hours_night
reproduces extra_hours: exactly when half-hour rounding is off, and
within rounding tolerance (strictly below one rounding move per bucket,
hence below 1 hour at any fragment cut between 1 and 30 minutes, and
below 2 hours at any cut whatsoever) when it is on. -/
theorem C5_extra_day_night_invariant (cfg : Config) (days : List DaySummary)
    (info : EmployeeInfo) (prev : ℚ) (hol : List ℤ) :
    ∀ pd ∈ ok_daily (process_employee_data cfg days info prev hol),
      (cfg.redondear_extras = false →
        pd.extra_hours_day + pd.extra_hours_night = pd.extra_hours) ∧
      |pd.extra_hours_day + pd.extra_hours_night - pd.extra_hours| < 2 ∧
      (1 ≤ cfg.fragmento_minutos → cfg.fragmento_minutos ≤ 30 →
        |pd.extra_hours_day + pd.extra_hours_night - pd.extra_hours| < 1) :=
  process_mem cfg days info prev hol
    (fun d ref => emitDay_extra_invariant cfg info d ref)

/-- Witness for C5 on a concrete one-day Saturday run. -/
theorem C5_extra_day_night_invariant_witness :
    emitDay sampleConfig sampleInfo satRec 5 ∈
      ok_daily (process_employee_data sampleConfig [satRec] sampleInfo 0 []) ∧
    ((sampleConfig.redondear_extras = false →
        (emitDay sampleConfig sampleInfo satRec 5).extra_hours_day +
          (emitDay sampleConfig sampleInfo satRec 5).extra_hours_night =
          (emitDay sampleConfig sampleInfo satRec 5).extra_hours) ∧
      |(emitDay sampleConfig sampleInfo satRec 5).extra_hours_day +
          (emitDay sampleConfig sampleInfo satRec 5).extra_hours_night -
          (emitDay sampleConfig sampleInfo satRec 5).extra_hours| < 2 ∧
      (1 ≤ sampleConfig.fragmento_minutos → sampleConfig.fragmento_minutos ≤ 30 →
        |(emitDay sampleConfig sampleInfo satRec 5).extra_hours_day +
            (emitDay sampleConfig sampleInfo satRec 5).extra_hours_night -
            (emitDay sampleConfig sampleInfo satRec 5).extra_hours| < 1)) :=
  ⟨by rw [ok_daily_single sampleConfig sampleInfo 0 [] (by decide) rfl]
      exact List.mem_singleton.mpr rfl,
    C5_extra_day_night_invariant sampleConfig [satRec] sampleInfo 0 []
      (emitDay sampleConfig sampleInfo satRec 5)
      (by rw [ok_daily_single sampleConfig sampleInfo 0 [] (by decide) rfl]
          exact List.mem_singleton.mpr rfl)⟩

/-- C1: a record whose reference-date string is present but
unparseable makes process_employee_data raise (the bare strptime at the
top of the loop sits outside every try/except), while the same loop
carries a record with unparseable punch timestamps through to an
emitted day.  Evidence for the code diverging from the never-raises
design of the spec. -/
theorem C1_unparseable_reference_date_raises :
    process_employee_data sampleConfig [badRec] sampleInfo 0 [] =
      .error "ValueError: time data does not match format percent-Y-m-d" ∧
    (ok_daily (process_employee_data sampleConfig [badTimesRec] sampleInfo 0 [])).length = 1 := by
  constructor
  · rfl
  · rw [ok_daily_single sampleConfig sampleInfo 0 [] (by decide) rfl]
    rfl

/-! ### Evaluation of the Saturday example record -/

theorem satRec_pair : first_entry_pair_local satRec = (some 7680, some 8100) := rfl

theorem satRec_disp :
    display_from_entries satRec 5 =
      (⟨true, some 5, some (8, 0)⟩, ⟨true, some 5, some (15, 0)⟩) := by
  simp [display_from_entries, satRec_pair, dtToDisp]

theorem satRec_intervals : get_intervals_from_entries satRec = [(7680, 8100)] := by
  simp [get_intervals_from_entries, satRec_pair]

theorem satRec_tr : time_range_of satRec = none := rfl

theorem satRec_cat : categorize_sums satRec.categorizedHours = (0, 3) := by
  simp [categorize_sums, satRec, zeroRec]

theorem satRec_night : night_hours_of sampleConfig satRec 5 = 0 := by
  rw [night_hours_of, satRec_intervals]
  simp [compute_night_hours_from_intervals, intersect_hours, round2, pyRound, sampleConfig]
  norm_num [Int.fract, min_def, max_def]

theorem satRec_extra : extra_final sampleConfig 3 0 = 3 := by
  simp [extra_final, maybe_redondear_extras, horas_a_minutos, pyRound, sampleConfig]
  norm_num

theorem satRec_split :
    split_extra_day_hours_at_13 ⟨true, some 5, some (8, 0)⟩ ⟨true, some 5, some (15, 0)⟩ 3 =
      (1, 2) := by
  simp [split_extra_day_hours_at_13, pyRound]
  norm_num

theorem satRec_emit :
    (emitDay sampleConfig sampleInfo satRec 5).extra_hours_50 = 1 ∧
    (emitDay sampleConfig sampleInfo satRec 5).extra_hours_100 = 2 ∧
    (emitDay sampleConfig sampleInfo satRec 5).extra_hours = 3 := by
  have hmr : ∀ x : ℚ, maybe_redondear_extras sampleConfig x = x := fun x => by
    simp [maybe_redondear_extras, sampleConfig]
  refine ⟨?_, ?_, ?_⟩ <;>
    simp [emitDay, satRec_tr, satRec_disp, satRec_cat, satRec_night, satRec_split,
      satRec_extra, calcular_llegada_anticipada_minutos, overtime_buckets, hmr, sampleInfo]

/-- C3, counterexample: on the Saturday shift 08:00-15:00 with 3 tail
day-overtime hours, the hour block before 13:00 is 12:00-13:00, one
hour, so extra50 = 1.0, not 2.0 as the claim states. -/
theorem C3_saturday_split_counterexample :
    split_extra_day_hours_at_13 ⟨true, some 5, some (8, 0)⟩ ⟨true, some 5, some (15, 0)⟩ 3 =
      (1, 2) ∧
    (emitDay sampleConfig sampleInfo satRec 5).extra_hours_50 = 1 ∧
    (1 : ℚ) ≠ 2 :=
  ⟨satRec_split, satRec_emit.1, by norm_num⟩

/-- C3 (amended): the Saturday shift ending 15:00 with exactly 3 tail
day-overtime hours yields extra50 = 1.0 (the 12:00-13:00 hour before
the boundary) and extra100 = 2.0 (the 13:00-15:00 remainder), summing
to 3.0, and the day is emitted as such. -/
theorem C3_saturday_split_amended :
    (emitDay sampleConfig sampleInfo satRec 5).extra_hours_50 = 1 ∧
    (emitDay sampleConfig sampleInfo satRec 5).extra_hours_100 = 2 ∧
    (emitDay sampleConfig sampleInfo satRec 5).extra_hours_50 +
      (emitDay sampleConfig sampleInfo satRec 5).extra_hours_100 = 3 ∧
    emitDay sampleConfig sampleInfo satRec 5 ∈
      ok_daily (process_employee_data sampleConfig [satRec] sampleInfo 0 []) := by
  refine ⟨satRec_emit.1, satRec_emit.2.1, ?_, ?_⟩
  · rw [satRec_emit.1, satRec_emit.2.1]
    norm_num
  · rw [ok_daily_single sampleConfig sampleInfo 0 [] (by decide) rfl]
    exact List.mem_singleton.mpr rfl

/-- C7, counterexample: when the first END punch parses to a datetime
more than 24 hours before the first START punch, the single added day
is not enough and the returned interval still has end < start. -/
theorem C7_overnight_pair_counterexample :
    first_entry_pair_local endBeforeRec = (some 7680, some 4440) ∧
    ¬ ((7680 : ℚ) < 4440) := by
  constructor
  · simp [first_entry_pair_local, first_iso_scan, parse_slot, endBeforeRec, zeroRec]
    norm_num
  · norm_num

/-- C7 (amended): whenever both punches parse and the parsed end lies
strictly later than 24 hours before the parsed start (as for punches of
one record sharing a calendar day), the pair is returned with 24 hours
added to the end exactly when end <= start, and then end > start. -/
theorem C7_overnight_pair (d : DaySummary) (s e : ℚ)
    (hs : parse_slot (first_iso_scan d.entries none none).1 = some s)
    (he : parse_slot (first_iso_scan d.entries none none).2 = some e)
    (hgap : s - 1440 < e) :
    first_entry_pair_local d = (some s, some (if e ≤ s then e + 1440 else e)) ∧
    s < (if e ≤ s then e + 1440 else e) := by
  constructor
  · simp [first_entry_pair_local, hs, he]
  · split_ifs with h
    · linarith
    · linarith [not_le.mp h]

/-- Witness for C7: START 08:00, END 02:00 of the same day gives the
18-hour interval (480, 1560). -/
theorem C7_overnight_pair_witness :
    parse_slot (first_iso_scan overnightRec.entries none none).1 = some 480 ∧
    parse_slot (first_iso_scan overnightRec.entries none none).2 = some 120 ∧
    (480 : ℚ) - 1440 < 120 ∧
    (first_entry_pair_local overnightRec =
        (some 480, some (if (120 : ℚ) ≤ 480 then (120 : ℚ) + 1440 else 120)) ∧
      (480 : ℚ) < (if (120 : ℚ) ≤ 480 then (120 : ℚ) + 1440 else 120)) ∧
    (if (120 : ℚ) ≤ 480 then (120 : ℚ) + 1440 else 120) - 480 = 18 * 60 :=
  ⟨rfl, rfl, by norm_num,
    C7_overnight_pair overnightRec 480 120 rfl rfl (by norm_num),
    by norm_num⟩

/-- C9, counterexample: when the punch dates differ but the end date is
strictly EARLIER than the start date, the source does not force 0: with
scheduled end 17:00 and actual end 06:00 three days earlier it reports
660 minutes of early departure, although the claim demands 0 for any
pair of different calendar dates. -/
theorem C9_early_departure_counterexample :
    calcular_retiro_anticipado_minutos (some (.valid 8 0, .valid 17 0))
      ⟨true, some 100, some (8, 0)⟩ ⟨true, some 97, some (6, 0)⟩ = 660 ∧
    (97 : ℤ) ≠ 100 ∧ (660 : ℚ) ≠ 0 := by
  refine ⟨?_, by decide, by norm_num⟩
  simp [calcular_retiro_anticipado_minutos]
  norm_num

/-- C9 (amended): early departure is max(0, scheduledEnd - actualEnd)
in minutes, forced to 0 exactly when both display strings carry a date
and the end date is strictly later than the start date (dates that
differ the other way fall through to the minute comparison), and 0 on
every missing or unparseable input. -/
theorem C9_early_departure_amended :
    (∀ (tr : Option (SchedStr × SchedStr)) (ss se : DispStr) (fs fe : ℤ),
        ss.date10 = some fs → se.date10 = some fe → fs < fe →
        calcular_retiro_anticipado_minutos tr ss se = 0) ∧
    (∀ (a : SchedStr) (h m he me : ℤ) (ss se : DispStr),
        se.nonempty = true → se.hhmm = some (he, me) →
        (∀ fs fe : ℤ, ss.date10 = some fs → se.date10 = some fe → ¬ fs < fe) →
        calcular_retiro_anticipado_minutos (some (a, .valid h m)) ss se =
          max 0 (((h * 60 + m : ℤ) : ℚ) - ((he * 60 + me : ℤ) : ℚ))) ∧
    (∀ ss se : DispStr, calcular_retiro_anticipado_minutos none ss se = 0) ∧
    (∀ (tr : Option (SchedStr × SchedStr)) (ss se : DispStr), se.nonempty = false →
        calcular_retiro_anticipado_minutos tr ss se = 0) ∧
    (∀ (a : SchedStr) (ss se : DispStr),
        calcular_retiro_anticipado_minutos (some (a, .invalid)) ss se = 0) ∧
    (∀ (a b : SchedStr) (ss se : DispStr), se.hhmm = none →
        calcular_retiro_anticipado_minutos (some (a, b)) ss se = 0) ∧
    calcular_retiro_anticipado_minutos (some (.valid 8 0, .valid 23 0))
      ⟨true, some 0, some (22, 55)⟩ ⟨true, some 1, some (1, 0)⟩ = 0 := by
  refine ⟨?_, ?_, ?_, ?_, ?_, ?_, ?_⟩
  · intro tr ss se fs fe h1 h2 h3
    obtain ⟨ne2, d2, hm2⟩ := se
    simp only at h2
    subst h2
    unfold calcular_retiro_anticipado_minutos
    rcases tr with _ | ⟨a, b⟩
    · cases ne2 <;> rfl
    · cases ne2
      · rfl
      · cases b with
        | invalid => rfl
        | valid h m =>
            cases hm2 with
            | none => rfl
            | some p =>
                obtain ⟨he, me⟩ := p
                rw [h1]
                simp [h3]
  · intro a h m he me ss se hne hhm hdates
    obtain ⟨ne2, d2, hm2⟩ := se
    simp only at hne hhm hdates ⊢
    subst hne
    subst hhm
    unfold calcular_retiro_anticipado_minutos
    cases hss : ss.date10 with
    | none =>
        cases d2 with
        | none => simp
        | some fe => simp
    | some fs =>
        cases d2 with
        | none => simp
        | some fe =>
            have hnlt := hdates fs fe hss rfl
            simp [hss, hnlt]
  · intro ss se
    obtain ⟨ne2, d2, hm2⟩ := se
    cases ne2 <;> rfl
  · intro tr ss se h
    obtain ⟨ne2, d2, hm2⟩ := se
    simp only at h
    subst h
    rcases tr with _ | ⟨a, b⟩
    · rfl
    · rfl
  · intro a ss se
    obtain ⟨ne2, d2, hm2⟩ := se
    cases ne2
    · rfl
    · rfl
  · intro a b ss se h
    obtain ⟨ne2, d2, hm2⟩ := se
    simp only at h
    subst h
    cases ne2
    · rfl
    · cases b with
      | invalid => rfl
      | valid h m => rfl
  · simp [calcular_retiro_anticipado_minutos]

/-- Witness for C9: the overnight exemption (scheduled end 23:00,
punch-out 01:00 the next day) and the same-day minute comparison. -/
theorem C9_early_departure_witness :
    calcular_retiro_anticipado_minutos (some (.valid 23 0, .valid 23 0))
      ⟨true, some 200, some (23, 0)⟩ ⟨true, some 201, some (1, 0)⟩ = 0 ∧
    calcular_retiro_anticipado_minutos (some (.valid 8 0, .valid 16 45))
      ⟨true, some 7, some (7, 45)⟩ ⟨true, some 7, some (15, 45)⟩ =
      max 0 (((16 * 60 + 45 : ℤ) : ℚ) - ((15 * 60 + 45 : ℤ) : ℚ)) :=
  ⟨C9_early_departure_amended.1 (some (.valid 23 0, .valid 23 0))
      ⟨true, some 200, some (23, 0)⟩ ⟨true, some 201, some (1, 0)⟩ 200 201 rfl rfl
      (by decide),
    C9_early_departure_amended.2.1 (.valid 8 0) 16 45 15 45
      ⟨true, some 7, some (7, 45)⟩ ⟨true, some 7, some (15, 45)⟩ rfl rfl
      (by intro fs fe h1 h2
          simp only at h1 h2
          cases h1
          cases h2
          decide)⟩

end HoursCalc
